import Mathlib

/-!
Verification of the Reader subsystem of `data-viz` (`src/data_reader.rs`).

The Rust source is shallowly embedded below:
* `SerialData.tryFrom` embeds `SerialData::try_from` (the frame parser);
* `Reader.process`, `Reader.start_reading`, `Reader.stop_reading`,
  `Reader.running`, `Reader.reader_status` embed the consumer facade,
  with the three mpsc channels modelled as FIFO queues plus a
  disconnection flag;
* `workerStep` embeds one iteration of `Reader::reader_main`, with file
  system effects (CSV open / header write / flush results) passed in as
  explicit parameters.

Machine numerics: the Rust values are `i32` parsed from text and stored as
`f64` pairs (`v as f64` is exact and injective on every `i32`), so series
samples are modelled as `Int` pairs; the parser enforces the `i32` range
explicitly.  String splitting is implemented structurally over `List Char`
mirroring Rust `str::split` semantics so that concrete runs reduce in the
kernel.
-/

/-- Rust `slice.strip_suffix(suf)`: `some` of the remainder when `suf` is a
suffix, otherwise `none`. -/
def stripSuffix (l suf : List Char) : Option (List Char) :=
  if suf.length ≤ l.length ∧ l.drop (l.length - suf.length) = suf then
    some (l.take (l.length - suf.length))
  else none

/-- Rust `str::split(" ")`: split on every single space, keeping empty
pieces; always returns at least one piece. -/
def splitSpace : List Char → List (List Char)
  | [] => [[]]
  | c :: rest =>
    if c = ' ' then [] :: splitSpace rest
    else
      match splitSpace rest with
      | [] => [[c]]
      | t :: ts => (c :: t) :: ts

/-- Rust `str::split("; ")`: split on every (leftmost, non-overlapping)
occurrence of the two-character separator `"; "`. -/
def splitSemiSpace : List Char → List (List Char)
  | [] => [[]]
  | [c] => [[c]]
  | c :: c' :: rest =>
    if c = ';' ∧ c' = ' ' then [] :: splitSemiSpace rest
    else
      match splitSemiSpace (c' :: rest) with
      | [] => [[c]]
      | t :: ts => (c :: t) :: ts

/-- Digit-string accumulator used by `digitsToNat`. -/
def digitsToNatAux : Nat → List Char → Option Nat
  | acc, [] => some acc
  | acc, c :: rest =>
    if c.isDigit then digitsToNatAux (acc * 10 + (c.toNat - '0'.toNat)) rest
    else none

/-- Parse a non-empty all-ASCII-digit string to a `Nat` (Rust's digit run of
`i32::from_str`). -/
def digitsToNat : List Char → Option Nat
  | [] => none
  | c :: rest => digitsToNatAux 0 (c :: rest)

/-- Rust `substr.parse::<i32>()`: optional single `+`/`-` sign followed by a
non-empty run of digits, with the value required to fit in `i32`. -/
def parseI32 (l : List Char) : Option Int :=
  let core : Option Int :=
    match l with
    | '-' :: rest => (digitsToNat rest).map (fun n => -(n : Int))
    | '+' :: rest => (digitsToNat rest).map (fun n => (n : Int))
    | _ => (digitsToNat l).map (fun n => (n : Int))
  match core with
  | none => none
  | some v => if -(2 ^ 31) ≤ v ∧ v < 2 ^ 31 then some v else none

/-- `enum SerialData` from `src/data_reader.rs`. -/
inductive SerialData where
  | Labels : List String → SerialData
  | Values : List Int → SerialData
  | Other : String → SerialData
deriving DecidableEq, Repr

/-- The `for substr in slice.split(" ")` loop of `SerialData::try_from`:
parse every token as `i32`, collecting them in order, bailing out at the
first token that fails. -/
def parseTokens : List (List Char) → Option (List Int)
  | [] => some []
  | t :: rest =>
    match parseI32 t with
    | none => none
    | some i =>
      match parseTokens rest with
      | none => none
      | some is => some (i :: is)

/-- `SerialData::try_from(slice: &str) -> Result<SerialData, io::Error>`:
strip the `"\r\n"` terminator (else `Other` of the whole line); a stripped
line starting with `"#L "` becomes `Labels` of the `"; "`-split remainder;
otherwise split on single spaces and parse every token as `i32`, giving
`Values` when all parse and `Other` of the stripped line when any fails.
Every path returns `Ok`. -/
def SerialData.tryFrom (s : String) : Except String SerialData :=
  match stripSuffix s.data ['\r', '\n'] with
  | none => .ok (.Other s)
  | some slice =>
    if slice.take 3 = ['#', 'L', ' '] then
      .ok (.Labels ((splitSemiSpace (slice.drop 3)).map fun cs => String.mk cs))
    else
      match parseTokens (splitSpace slice) with
      | some data => .ok (.Values data)
      | none => .ok (.Other (String.mk slice))

example : SerialData.tryFrom "#L a; b\r\n" = .ok (.Labels ["a", "b"]) := rfl
example : SerialData.tryFrom "0 10 20\r\n" = .ok (.Values [0, 10, 20]) := rfl
example : SerialData.tryFrom "0 10 20" = .ok (.Other "0 10 20") := rfl
example : SerialData.tryFrom "0 x\r\n" = .ok (.Other "0 x") := rfl
example : SerialData.tryFrom "\r\n" = .ok (.Other "") := rfl
example : SerialData.tryFrom "-5 +7\r\n" = .ok (.Values [-5, 7]) := rfl
example : SerialData.tryFrom "2147483648\r\n" = .ok (.Other "2147483648") := rfl
example : SerialData.tryFrom "-2147483648\r\n" = .ok (.Values [-2147483648]) := rfl

/-- `enum ReaderStatus` from `src/data_reader.rs`. -/
inductive ReaderStatus where
  | LogErr : String → ReaderStatus
  | Running : ReaderStatus
  | Logging : ReaderStatus
  | Stopped : Option String → ReaderStatus
deriving DecidableEq, Repr

/-- `enum Commands` from `src/data_reader.rs` (the `Box<Path>` payload is
the destination path string). -/
inductive Commands where
  | Stop : Commands
  | StopLogger : Commands
  | StartLogging : String → Commands
deriving DecidableEq, Repr

/-- The error side of `mpsc::TryRecvError`. -/
inductive RecvErr where
  | empty : RecvErr
  | disconnected : RecvErr
deriving DecidableEq, Repr

/-- One `mpsc` channel endpoint as seen by its receiver: the FIFO backlog
plus whether the sending side has been dropped.  `try_recv` yields buffered
messages first and reports `Disconnected` only once the backlog is empty,
exactly like `std::sync::mpsc`. -/
structure Chan (α : Type) where
  queue : List α
  senderDropped : Bool
deriving DecidableEq, Repr

/-- `Receiver::try_recv`. -/
def Chan.tryRecv {α : Type} (c : Chan α) : Except RecvErr α × Chan α :=
  match c.queue with
  | x :: rest => (.ok x, { c with queue := rest })
  | [] => (.error (if c.senderDropped then .disconnected else .empty), c)

/-- `struct ReaderComm`: the consumer-held channel endpoints.  Commands the
consumer sends are appended to `commandQueue`. -/
structure ReaderComm where
  commandQueue : List Commands
  frames : Chan SerialData
  statuses : Chan ReaderStatus
deriving DecidableEq, Repr

/-- `struct Reader`.  The `HashMap<String, Vec<[f64; 2]>>` is modelled as a
total function from key to sample list (absent key ↦ `[]`); samples are
`Int` pairs since `i32 as f64` is exact. -/
structure Reader where
  comm : Option ReaderComm
  status : ReaderStatus
  labels : List String
  data : String → List (Int × Int)

/-- `Reader::default()` (`ReaderStatus::default()` is `Stopped(None)`). -/
def Reader.init : Reader := ⟨none, .Stopped none, [], fun _ => []⟩

/-- `self.data.entry(label).or_default().push([time, value])` for one key. -/
def pushSample (data : String → List (Int × Int)) (k : String) (p : Int × Int) :
    String → List (Int × Int) :=
  fun k' => if k' = k then data k' ++ [p] else data k'

/-- The `for (label, value) in labels.iter().zip(v.skip(1))` loop: push the
pair `(t, value)` onto each zipped label's series, left to right. -/
def foldValuesAux :
    List (String × Int) → Int → (String → List (Int × Int)) →
    (String → List (Int × Int))
  | [], _, d => d
  | (l, x) :: rest, t, d => foldValuesAux rest t (pushSample d l (t, x))

/-- The `Ok` arms of the frame-drain loop in `Reader::process`:
`Labels` replaces the label list and clears the whole store; `Values v`
reads `v[0]` as the time and zips the remaining values against the current
labels (the `Values []` case would be the `v[0]` index panic in Rust; it is
unreachable for parser output, which is never empty); `Other` only
prints. -/
def stepFrame (labels : List String) (data : String → List (Int × Int)) :
    SerialData → List String × (String → List (Int × Int))
  | .Labels s => (s, fun _ => [])
  | .Values [] => (labels, data)
  | .Values (t :: rest) => (labels, foldValuesAux (labels.zip rest) t data)
  | .Other _ => (labels, data)

/-- `Reader::process`: drain the frame channel completely (folding each
record with `stepFrame`), remember `Some(100ms)` when that drain ended on
`Empty` (or the synthesized `Stopped` status when it ended on
`Disconnected`), then do a single `try_recv` on the status channel and
dispatch on it. -/
def Reader.process (r : Reader) : Reader × Option Nat :=
  match r.comm with
  | none => (r, none)
  | some c =>
    let folded := c.frames.queue.foldl (fun st f => stepFrame st.1 st.2 f)
      (r.labels, r.data)
    let framesAfter : Chan SerialData := { c.frames with queue := [] }
    let ret : Option Nat := if c.frames.senderDropped then none else some 100
    let statusAfterDrain : ReaderStatus :=
      if c.frames.senderDropped then
        .Stopped (some "Reader Disconnected unexpectedly")
      else r.status
    match Chan.tryRecv c.statuses with
    | (.ok .Running, st') =>
      ({ comm := some { c with frames := framesAfter, statuses := st' },
         status := .Running, labels := folded.1, data := folded.2 }, ret)
    | (.ok .Logging, st') =>
      ({ comm := some { c with frames := framesAfter, statuses := st' },
         status := .Logging, labels := folded.1, data := folded.2 }, ret)
    | (.ok (.Stopped s), _) =>
      ({ comm := none, status := .Stopped s,
         labels := folded.1, data := folded.2 }, none)
    | (.ok (.LogErr e), st') =>
      ({ comm := some { c with frames := framesAfter, statuses := st' },
         status := .LogErr e, labels := folded.1, data := folded.2 }, ret)
    | (.error .disconnected, _) =>
      ({ comm := none, status := .Stopped (some "Reader Disconnected unexpectedly"),
         labels := folded.1, data := folded.2 }, none)
    | (.error .empty, st') =>
      ({ comm := some { c with frames := framesAfter, statuses := st' },
         status := statusAfterDrain, labels := folded.1, data := folded.2 }, ret)

/-- `Reader::start_reading`: a no-op when a session is active; otherwise the
result of `spawn_reader` (passed in as `openResult`, since opening the
device is I/O) either installs the comm endpoints or sets
`Stopped(error message)`. -/
def Reader.start_reading (r : Reader) (openResult : Except String ReaderComm) :
    Reader :=
  match r.comm with
  | some _ => r
  | none =>
    match openResult with
    | .ok c => { r with comm := some c }
    | .error e => { r with status := .Stopped (some e) }

/-- `command_tx.send(cmd)` (the `Result` of the send is discarded). -/
def sendCommand (c : ReaderComm) (cmd : Commands) : ReaderComm :=
  { c with commandQueue := c.commandQueue ++ [cmd] }

/-- `Reader::stop_reading`. -/
def Reader.stop_reading (r : Reader) : Reader :=
  match r.comm with
  | none => r
  | some c => { r with comm := some (sendCommand c .Stop) }

/-- `Reader::start_logging`. -/
def Reader.start_logging (r : Reader) (path : String) : Reader :=
  match r.comm with
  | none => r
  | some c => { r with comm := some (sendCommand c (.StartLogging path)) }

/-- `Reader::stop_logging`. -/
def Reader.stop_logging (r : Reader) : Reader :=
  match r.comm with
  | none => r
  | some c => { r with comm := some (sendCommand c .StopLogger) }

/-- `Reader::running`: `!matches!(self.status, ReaderStatus::Stopped(_))`. -/
def Reader.running (r : Reader) : Bool :=
  match r.status with
  | .Stopped _ => false
  | _ => true

/-- `Reader::logging`. -/
def Reader.logging (r : Reader) : Bool :=
  match r.status with
  | .Logging => true
  | _ => false

/-- `Reader::reader_status`. -/
def Reader.reader_status (r : Reader) : String :=
  match r.status with
  | .LogErr e => e
  | .Running => "Running"
  | .Logging => "Logging"
  | .Stopped (some reason) => "Stopped (" ++ reason ++ ")"
  | .Stopped none => "Stopped"

/-- Outcome of one `reader_main` loop iteration: continue with a new state,
exit via `return` (the graceful `Stop` path), or `panic!`. -/
inductive WorkerNext where
  | continued : WorkerNext
  | returned : WorkerNext
  | panicked : WorkerNext
deriving DecidableEq, Repr

/-- Worker-local mutable state of `reader_main`: the `err_retry` counter and
the optional CSV writer, modelled by the rows written to it so far. -/
structure WorkerState where
  errRetry : Nat
  loggerRows : Option (List (List String))
deriving DecidableEq, Repr

/-- Result of one loop iteration: control outcome, the new worker state,
and the statuses / frames sent during the iteration, in send order. -/
structure StepResult where
  next : WorkerNext
  state : WorkerState
  statusOut : List ReaderStatus
  frameOut : List SerialData
deriving DecidableEq, Repr

/-- Result of `reader.next_frame()` for one iteration: a parsed frame, an
`io::ErrorKind::TimedOut`, or any other I/O error (with its message). -/
inductive ReadResult where
  | ok : SerialData → ReadResult
  | timedOut : ReadResult
  | err : String → ReadResult
deriving DecidableEq, Repr

/-- What `command_rx.try_recv()` yielded this iteration. -/
inductive CmdRecv where
  | got : Commands → CmdRecv
  | empty : CmdRecv
  | disconnected : CmdRecv
deriving DecidableEq, Repr

/-- The CSV header row written when `StartLogging` arms the writer. -/
def headerRow : List String := ["Sensor id", "Board id", "Read Time", "Time", "Value"]

/-- The `match reader.next_frame()` block of `reader_main`.  A successful
read resets `err_retry` and forwards the frame — the log-append block
(lines 275–290 of the source) is commented out, so `loggerRows` is not
touched.  `waiting` is initialized to `true` and never reassigned, so a
timeout always hits `continue` without touching the counter.  Any other
error increments `err_retry`; once it exceeds 3 the worker sends
`Stopped(Some(msg))` and panics. -/
def handleRead (s : WorkerState) (r : ReadResult) : StepResult :=
  match r with
  | .ok f => ⟨.continued, { s with errRetry := 0 }, [], [f]⟩
  | .timedOut => ⟨.continued, s, [], []⟩
  | .err e =>
    if s.errRetry + 1 > 3 then
      ⟨.panicked, { s with errRetry := s.errRetry + 1 }, [.Stopped (some e)], []⟩
    else
      ⟨.continued, { s with errRetry := s.errRetry + 1 }, [], []⟩

/-- Run `handleRead` after some command handling already produced statuses. -/
def withRead (s : WorkerState) (pre : List ReaderStatus) (r : ReadResult) :
    StepResult :=
  let h := handleRead s r
  ⟨h.next, h.state, pre ++ h.statusOut, h.frameOut⟩

/-- One iteration of the `loop` in `Reader::reader_main`.  File-system
results are passed in: `fsOpen` is the result of `csv::Writer::from_path`,
`fsHeader` the error (if any) of writing the header row, `fsFlush` the
error (if any) of `wtr.flush()` in the `StopLogger` arm.  `Stop` flushes
(result discarded), sends `Stopped(None)` and returns; `StopLogger` without
a writer and `StartLogging` while armed or on any open/header failure hit
`continue`, skipping the read for this iteration; the remaining arms fall
through to the read. -/
def workerStep (s : WorkerState) (c : CmdRecv) (fsOpen : Except String Unit)
    (fsHeader : Option String) (fsFlush : Option String) (r : ReadResult) :
    StepResult :=
  match c with
  | .got .Stop => ⟨.returned, s, [.Stopped none], []⟩
  | .got .StopLogger =>
    match s.loggerRows with
    | none => ⟨.continued, s, [], []⟩
    | some _ =>
      match fsFlush with
      | some e => withRead { s with loggerRows := none } [.LogErr e] r
      | none => withRead { s with loggerRows := none } [.Running] r
  | .got (.StartLogging _) =>
    match s.loggerRows with
    | some _ => ⟨.continued, s, [], []⟩
    | none =>
      match fsOpen with
      | .error e => ⟨.continued, s, [.LogErr e], []⟩
      | .ok _ =>
        match fsHeader with
        | some e => ⟨.continued, s, [.LogErr e], []⟩
        | none => withRead { s with loggerRows := some [headerRow] } [.Logging] r
  | .empty => withRead s [] r
  | .disconnected => ⟨.panicked, s, [], []⟩

/-- A run of consecutive iterations in which the command channel is empty
and only reads happen; stops early when an iteration returns or panics. -/
def runReads (s : WorkerState) : List ReadResult → StepResult
  | [] => ⟨.continued, s, [], []⟩
  | r :: rest =>
    let h := workerStep s .empty (.ok ()) none none r
    match h.next with
    | .continued =>
      let t := runReads h.state rest
      ⟨t.next, t.state, h.statusOut ++ t.statusOut, h.frameOut ++ t.frameOut⟩
    | _ => h

example :
    runReads ⟨0, none⟩ [.err "e1", .err "e2", .err "e3"] =
      ⟨.continued, ⟨3, none⟩, [], []⟩ := rfl
example :
    runReads ⟨0, none⟩ [.err "e1", .err "e2", .err "e3", .err "e4"] =
      ⟨.panicked, ⟨4, none⟩, [.Stopped (some "e4")], []⟩ := rfl
example :
    runReads ⟨0, none⟩ [.err "e1", .timedOut, .err "e2", .ok (.Values [1]),
      .err "e3", .err "e4", .err "e5", .err "e6"] =
      ⟨.panicked, ⟨4, none⟩, [.Stopped (some "e6")],
        [.Values [1]]⟩ := rfl

theorem pushSample_apply (d : String → List (Int × Int)) (k k' : String)
    (p : Int × Int) :
    pushSample d k p k' = if k' = k then d k' ++ [p] else d k' := rfl

theorem foldValuesAux_apply (pairs : List (String × Int)) (t : Int)
    (d : String → List (Int × Int)) (k : String) :
    foldValuesAux pairs t d k =
      d k ++ (pairs.filter (fun p => p.1 = k)).map (fun p => (t, p.2)) := by
  induction pairs generalizing d with
  | nil => simp [foldValuesAux]
  | cons p rest ih =>
    obtain ⟨l, x⟩ := p
    rw [foldValuesAux, ih, pushSample_apply]
    by_cases h : l = k
    · subst h
      simp [List.filter_cons]
    · simp [List.filter_cons, h, Ne.symm h]

theorem filter_zip_not_mem (L : List String) (vs : List Int) (k : String)
    (hk : k ∉ L) : (L.zip vs).filter (fun p => p.1 = k) = [] := by
  induction L generalizing vs with
  | nil => simp
  | cons l L' ih =>
    cases vs with
    | nil => simp
    | cons v vs' =>
      simp only [List.mem_cons, not_or] at hk
      simp [List.zip_cons_cons, List.filter_cons, Ne.symm hk.1, ih vs' hk.2]

theorem filter_zip_nodup (L : List String) (vs : List Int) (hN : L.Nodup)
    (i : Fin L.length) :
    (L.zip vs).filter (fun p => p.1 = L.get i) =
      if h : i.val < vs.length then [(L.get i, vs.get ⟨i.val, h⟩)] else [] := by
  induction L generalizing vs with
  | nil => exact absurd i.isLt (by simp)
  | cons l L' ih =>
    rw [List.nodup_cons] at hN
    cases vs with
    | nil => simp
    | cons v vs' =>
      rcases i with ⟨iv, hi⟩
      cases iv with
      | zero =>
        simp [List.zip_cons_cons, List.filter_cons,
          filter_zip_not_mem L' vs' l hN.1]
      | succ j =>
        have hj : j < L'.length := Nat.lt_of_succ_lt_succ hi
        have hmem : L'.get ⟨j, hj⟩ ∈ L' := List.get_mem _ _ _
        have hne : l ≠ L'.get ⟨j, hj⟩ := fun h => hN.1 (h ▸ hmem)
        simp only [List.zip_cons_cons, List.filter_cons, List.get_cons_succ]
        rw [if_neg (by simpa using hne)]
        rw [ih vs' hN.2 ⟨j, hj⟩]
        simp only [List.length_cons]
        by_cases h : j < vs'.length
        · have h' : j + 1 < vs'.length + 1 := by omega
          rw [dif_pos h, dif_pos h']
        · have h' : ¬ (j + 1 < vs'.length + 1) := by omega
          rw [dif_neg h, dif_neg h']

theorem splitSpace_ne_nil (l : List Char) : splitSpace l ≠ [] := by
  cases l with
  | nil => simp [splitSpace]
  | cons c rest =>
    rw [splitSpace]
    by_cases h : c = ' '
    · simp [h]
    · rw [if_neg h]
      cases splitSpace rest <;> simp

theorem parseTokens_length (xs : List (List Char)) (ys : List Int)
    (h : parseTokens xs = some ys) : ys.length = xs.length := by
  induction xs generalizing ys with
  | nil =>
    simp only [parseTokens, Option.some.injEq] at h
    simp [← h]
  | cons x xs ih =>
    rw [parseTokens] at h
    cases hx : parseI32 x with
    | none => rw [hx] at h; exact Option.noConfusion h
    | some y =>
      rw [hx] at h
      cases hxs : parseTokens xs with
      | none => rw [hxs] at h; exact Option.noConfusion h
      | some ys' =>
        rw [hxs] at h
        have hy : ys = y :: ys' := by
          simpa [eq_comm] using h
        subst hy
        simp [ih ys' hxs]

theorem stripSuffix_append (l suf : List Char) :
    stripSuffix (l ++ suf) suf = some l := by
  unfold stripSuffix
  rw [if_pos]
  · congr 1
    rw [List.length_append, Nat.add_sub_cancel, List.take_left]
  · constructor
    · rw [List.length_append]
      omega
    · rw [List.length_append, Nat.add_sub_cancel, List.drop_left]

theorem stripSuffix_eq_none_iff (l suf : List Char) :
    stripSuffix l suf = none ↔ ¬ suf <:+ l := by
  unfold stripSuffix
  by_cases h : suf.length ≤ l.length ∧ l.drop (l.length - suf.length) = suf
  · rw [if_pos h]
    have hs : suf <:+ l := by
      rw [← h.2]
      exact List.drop_suffix _ _
    constructor
    · intro hx
      exact Option.noConfusion hx
    · intro hns
      exact absurd hs hns
  · rw [if_neg h]
    simp only [true_iff]
    intro hsuf
    exact h ⟨hsuf.length_le, by
      obtain ⟨pre, hpre⟩ := hsuf
      subst hpre
      rw [List.length_append, Nat.add_sub_cancel, List.drop_left]⟩

theorem tryFrom_of_none (s : String)
    (hsp : stripSuffix s.data ['\r', '\n'] = none) :
    SerialData.tryFrom s = .ok (.Other s) := by
  unfold SerialData.tryFrom
  rw [hsp]

theorem tryFrom_of_some (s : String) (slice : List Char)
    (hsp : stripSuffix s.data ['\r', '\n'] = some slice) :
    SerialData.tryFrom s =
      (if slice.take 3 = ['#', 'L', ' '] then
        .ok (.Labels ((splitSemiSpace (slice.drop 3)).map fun cs => String.mk cs))
      else
        match parseTokens (splitSpace slice) with
        | some data => .ok (.Values data)
        | none => .ok (.Other (String.mk slice))) := by
  unfold SerialData.tryFrom
  rw [hsp]

/-- C7: the frame parser `SerialData::try_from` is total — for every input
string it returns `Ok` of a classified record and never fails; a line not
ending in the terminator `"\r\n"` is classified `Other`; a terminated line
starting with `"#L "` becomes a `Labels` record split on `"; "` (so
`"#L a; b\r\n"` gives `Labels ["a", "b"]`); otherwise, when every
space-separated token parses as an `i32` the result is `Values` of all
tokens, and when any token fails to parse the whole line is `Other` with
no partial application. -/
theorem c7_tryFrom_total_classification :
    (∀ s : String, ∃ d, SerialData.tryFrom s = .ok d) ∧
    (∀ s : String, ¬ ['\r', '\n'] <:+ s.data →
      SerialData.tryFrom s = .ok (.Other s)) ∧
    (∀ rest : List Char,
      SerialData.tryFrom (String.mk ('#' :: 'L' :: ' ' :: rest ++ ['\r', '\n'])) =
        .ok (.Labels ((splitSemiSpace rest).map fun cs => String.mk cs))) ∧
    (∀ (line : List Char) (d : List Int), line.take 3 ≠ ['#', 'L', ' '] →
      parseTokens (splitSpace line) = some d →
      SerialData.tryFrom (String.mk (line ++ ['\r', '\n'])) = .ok (.Values d)) ∧
    (∀ line : List Char, line.take 3 ≠ ['#', 'L', ' '] →
      parseTokens (splitSpace line) = none →
      SerialData.tryFrom (String.mk (line ++ ['\r', '\n'])) =
        .ok (.Other (String.mk line))) ∧
    SerialData.tryFrom "#L a; b\r\n" = .ok (.Labels ["a", "b"]) := by
  refine ⟨?_, ?_, ?_, ?_, ?_, rfl⟩
  · intro s
    rcases hsp : stripSuffix s.data ['\r', '\n'] with _ | slice
    · exact ⟨_, tryFrom_of_none s hsp⟩
    · rw [tryFrom_of_some s slice hsp]
      by_cases h3 : slice.take 3 = ['#', 'L', ' ']
      · rw [if_pos h3]
        exact ⟨_, rfl⟩
      · rw [if_neg h3]
        rcases hm : parseTokens (splitSpace slice) with _ | d
        · exact ⟨_, rfl⟩
        · exact ⟨_, rfl⟩
  · intro s hns
    exact tryFrom_of_none s ((stripSuffix_eq_none_iff _ _).mpr hns)
  · intro rest
    rw [tryFrom_of_some _ _
      (stripSuffix_append ('#' :: 'L' :: ' ' :: rest) ['\r', '\n'])]
    simp
  · intro line d h3 hm
    rw [tryFrom_of_some _ line (stripSuffix_append line ['\r', '\n']),
      if_neg h3, hm]
  · intro line h3 hm
    rw [tryFrom_of_some _ line (stripSuffix_append line ['\r', '\n']),
      if_neg h3, hm]

/-- Witness for C7 at concrete lines. -/
theorem c7_tryFrom_total_classification_witness :
    SerialData.tryFrom "abc" = .ok (.Other "abc") ∧
    SerialData.tryFrom (String.mk ("1 2".data ++ ['\r', '\n'])) =
      .ok (.Values [1, 2]) :=
  ⟨c7_tryFrom_total_classification.2.1 "abc" (by decide),
   c7_tryFrom_total_classification.2.2.2.1 "1 2".data [1, 2] (by decide)
     (by decide)⟩

/-- C10: every `Values` record the parser produces holds at least one
integer (splitting a terminated line on spaces yields at least one token
and all must parse), so the `v[0]` timestamp access in `Reader::process`
is in bounds. -/
theorem c10_values_nonempty (s : String) (v : List Int)
    (h : SerialData.tryFrom s = .ok (.Values v)) : 0 < v.length := by
  rcases hsp : stripSuffix s.data ['\r', '\n'] with _ | slice
  · rw [tryFrom_of_none s hsp] at h
    simp at h
  · rw [tryFrom_of_some s slice hsp] at h
    by_cases h3 : slice.take 3 = ['#', 'L', ' ']
    · rw [if_pos h3] at h
      simp at h
    · rw [if_neg h3] at h
      rcases hm : parseTokens (splitSpace slice) with _ | d
      · rw [hm] at h
        simp at h
      · rw [hm] at h
        have hv : d = v := by simpa using h
        subst hv
        rw [parseTokens_length _ _ hm]
        exact List.length_pos.mpr (splitSpace_ne_nil slice)

/-- Witness for C10 at the concrete line `"0\r\n"`. -/
theorem c10_values_nonempty_witness :
    SerialData.tryFrom "0\r\n" = .ok (.Values [0]) ∧
      0 < ([0] : List Int).length :=
  ⟨rfl, c10_values_nonempty "0\r\n" [0] rfl⟩

/-- C1: in the worker read loop a successful read resets the
consecutive-error counter to zero; a read timeout changes nothing (the
`waiting` flag is always `true`, so the loop just retries); any other read
error increments the counter; three consecutive non-timeout read failures
from a clean counter do not terminate the worker; a fourth consecutive one
makes it emit `Stopped` with a non-empty reason and terminate (panic). -/
theorem c1_error_escalation (s : WorkerState) (f : SerialData)
    (e1 e2 e3 e4 : String) (he : e4 ≠ "") :
    (handleRead s (.ok f) = ⟨.continued, { s with errRetry := 0 }, [], [f]⟩) ∧
    (handleRead s .timedOut = ⟨.continued, s, [], []⟩) ∧
    (s.errRetry + 1 ≤ 3 →
      handleRead s (.err e4) =
        ⟨.continued, { s with errRetry := s.errRetry + 1 }, [], []⟩) ∧
    (runReads { s with errRetry := 0 } [.err e1, .err e2, .err e3] =
      ⟨.continued, { s with errRetry := 3 }, [], []⟩) ∧
    (e4 ≠ "" ∧
      runReads { s with errRetry := 0 } [.err e1, .err e2, .err e3, .err e4] =
        ⟨.panicked, { s with errRetry := 4 }, [.Stopped (some e4)], []⟩) := by
  refine ⟨rfl, rfl, ?_, ?_, he, ?_⟩
  · intro h
    rw [handleRead, if_neg (by omega)]
  · simp [runReads, workerStep, withRead, handleRead]
  · simp [runReads, workerStep, withRead, handleRead]

/-- Witness for C1: four consecutive read errors at a concrete state. -/
theorem c1_error_escalation_witness :
    ("boom" : String) ≠ "" ∧
    runReads ⟨0, none⟩ [.err "e1", .err "e2", .err "e3", .err "boom"] =
      ⟨.panicked, ⟨4, none⟩, [.Stopped (some "boom")], []⟩ :=
  (c1_error_escalation ⟨0, none⟩ (.Other "") "e1" "e2" "e3" "boom"
    (by decide)).2.2.2.2

/-- C2 (evidence of the code bug): with the log writer armed (its rows so
far are just the header, i.e. status `Logging` was emitted) and the
command channel empty, a successfully read and parsed record is forwarded
on the frame channel with NO row appended to the CSV writer — the
log-append block in the read loop (src lines 275–290) is commented out, so
the worker state (including the writer's rows) is unchanged apart from the
reset error counter. -/
theorem c2_armed_writer_gets_no_row :
    workerStep ⟨0, some [headerRow]⟩ .empty (.ok ()) none none
        (.ok (.Values [0, 1])) =
      ⟨.continued, ⟨0, some [headerRow]⟩, [], [.Values [0, 1]]⟩ ∧
    (∀ (rows : List (List String)) (f : SerialData) (n : Nat),
      (workerStep ⟨n, some rows⟩ .empty (.ok ()) none none
        (.ok f)).state.loggerRows = some rows) :=
  ⟨rfl, fun _ _ _ => rfl⟩

/-- C9: `start_reading` is a no-op when a session is already active; when
no session is active and opening the device fails, the status becomes
`Stopped` with the error message and no comm is installed (no worker
spawned); in every case the series store and the labels are unchanged. -/
theorem c9_start_reading_frame (r : Reader) (o : Except String ReaderComm)
    (c : ReaderComm) (e : String) :
    (r.comm = some c → r.start_reading o = r) ∧
    (r.comm = none →
      r.start_reading (.error e) = { r with status := .Stopped (some e) } ∧
      (r.start_reading (.error e)).comm = none) ∧
    ((r.start_reading o).data = r.data ∧
      (r.start_reading o).labels = r.labels) := by
  refine ⟨?_, ?_, ?_⟩
  · intro h
    unfold Reader.start_reading
    rw [h]
  · intro h
    unfold Reader.start_reading
    rw [h]
    exact ⟨rfl, rfl⟩
  · unfold Reader.start_reading
    cases hc : r.comm with
    | some c' => exact ⟨rfl, rfl⟩
    | none =>
      cases o with
      | ok c' => exact ⟨rfl, rfl⟩
      | error e' => exact ⟨rfl, rfl⟩

/-- Witness for C9: a failing open on a fresh Reader. -/
theorem c9_start_reading_frame_witness :
    (Reader.init.start_reading (.error "open failed")).status =
      .Stopped (some "open failed") ∧
    (Reader.init.start_reading (.error "open failed")).comm = none := by
  have h := (c9_start_reading_frame Reader.init (.error "open failed")
    ⟨[], ⟨[], false⟩, ⟨[], false⟩⟩ "open failed").2.1 rfl
  exact ⟨by rw [h.1], h.2⟩

/-- C4: once a `Stopped` status is received by `process` — from the status
channel, or synthesized when the status channel is found disconnected —
the same call clears the session handle (`comm := none`) and returns
`none` as the re-poll delay; any later call with no session returns `none`
and folds no frames, and the command operations are no-ops (nothing is
sent through the invalidated session). -/
theorem c4_stopped_invalidates_session (r : Reader) (c : ReaderComm)
    (s : Option String) (rest : List ReaderStatus) :
    (r.comm = some c → c.statuses.queue = .Stopped s :: rest →
      (Reader.process r).1.comm = none ∧ (Reader.process r).2 = none ∧
      (Reader.process r).1.status = .Stopped s) ∧
    (r.comm = some c → c.statuses.queue = [] →
      c.statuses.senderDropped = true →
      (Reader.process r).1.comm = none ∧ (Reader.process r).2 = none) ∧
    (r.comm = none → Reader.process r = (r, none)) ∧
    (r.comm = none →
      r.stop_reading = r ∧ r.stop_logging = r ∧ ∀ p, r.start_logging p = r) := by
  refine ⟨?_, ?_, ?_, ?_⟩
  · intro h hq
    simp [Reader.process, h, Chan.tryRecv, hq]
  · intro h hq hd
    simp [Reader.process, h, Chan.tryRecv, hq, hd]
  · intro h
    simp [Reader.process, h]
  · intro h
    refine ⟨?_, ?_, ?_⟩
    · simp [Reader.stop_reading, h]
    · simp [Reader.stop_logging, h]
    · intro p
      simp [Reader.start_logging, h]

/-- The concrete Reader used to instantiate C4: an active session whose
status channel holds one `Stopped` message. -/
def c4Reader : Reader :=
  ⟨some ⟨[], ⟨[], false⟩, ⟨[.Stopped (some "bye")], false⟩⟩, .Running, [],
    fun _ => []⟩

/-- Witness for C4: polling the Reader above clears the session and stops
re-polling. -/
theorem c4_stopped_invalidates_session_witness :
    (Reader.process c4Reader).1.comm = none ∧
    (Reader.process c4Reader).2 = none ∧
    (Reader.process c4Reader).1.status = .Stopped (some "bye") :=
  (c4_stopped_invalidates_session c4Reader
    ⟨[], ⟨[], false⟩, ⟨[.Stopped (some "bye")], false⟩⟩ (some "bye") []).1
    rfl rfl

/-- The concrete Reader used to refute C3: an active session with an empty
frame channel and TWO statuses buffered (`Running`, then `Stopped`). -/
def c3Reader : Reader :=
  ⟨some ⟨[], ⟨[], false⟩, ⟨[.Running, .Stopped none], false⟩⟩, .Running, [],
    fun _ => []⟩

/-- C3 counterexample: the claim says `process` drains the status channel
and applies the LAST status observed, so on `c3Reader` it would apply
`Stopped` and return `none`.  The code does a single `try_recv`: after one
call the status is `Running` (not `Stopped`), the `Stopped` message is
still queued, and the returned delay is `some 100`. -/
theorem c3_single_recv_counterexample :
    (Reader.process c3Reader).1.status = .Running ∧
    (Reader.process c3Reader).1.status ≠ .Stopped none ∧
    (∃ c', (Reader.process c3Reader).1.comm = some c' ∧
      c'.statuses.queue = [.Stopped none]) ∧
    (Reader.process c3Reader).2 = some 100 :=
  ⟨rfl,
   fun hx => ReaderStatus.noConfusion
     (((show (Reader.process c3Reader).1.status = .Running from rfl) ▸ hx :
       ReaderStatus.Running = .Stopped none)),
   ⟨⟨[], ⟨[], false⟩, ⟨[.Stopped none], false⟩⟩, rfl, rfl⟩, rfl⟩

/-- C3 (amended): `process` drains the frame channel completely, folding
each record into the store in arrival order, BEFORE consulting the status
channel; it then receives at most ONE status message per call (a single
`try_recv`) and applies it; it returns a 100 ms re-poll delay while a
session is active and both channels were empty, and returns `none` once a
`Stopped` status is received. -/
theorem c3_process_drains_frames_single_status (r : Reader) (c : ReaderComm)
    (hc : r.comm = some c) :
    (((Reader.process r).1.labels, (Reader.process r).1.data) =
      c.frames.queue.foldl (fun st f => stepFrame st.1 st.2 f)
        (r.labels, r.data)) ∧
    (∀ c', (Reader.process r).1.comm = some c' →
      c'.frames.queue = [] ∧ c'.statuses = (Chan.tryRecv c.statuses).2) ∧
    (c.frames.senderDropped = false → c.statuses.queue = [] →
      c.statuses.senderDropped = false → (Reader.process r).2 = some 100) ∧
    (∀ s rest, c.statuses.queue = .Stopped s :: rest →
      (Reader.process r).2 = none) := by
  refine ⟨?_, ?_, ?_, ?_⟩
  · rcases hq : c.statuses.queue with _ | ⟨st, rest'⟩
    · cases hd : c.statuses.senderDropped <;>
        simp [Reader.process, hc, Chan.tryRecv, hq, hd]
    · cases st <;> simp [Reader.process, hc, Chan.tryRecv, hq]
  · intro c' hc'
    rcases hq : c.statuses.queue with _ | ⟨st, rest'⟩
    · cases hd : c.statuses.senderDropped
      · simp [Reader.process, hc, Chan.tryRecv, hq, hd] at hc'
        simp [← hc', Chan.tryRecv, hq, hd]
      · simp [Reader.process, hc, Chan.tryRecv, hq, hd] at hc'
    · cases st <;> simp [Reader.process, hc, Chan.tryRecv, hq] at hc' <;>
        simp [← hc', Chan.tryRecv, hq]
  · intro hfd hq hd
    simp [Reader.process, hc, Chan.tryRecv, hq, hd, hfd]
  · intro s rest hq
    simp [Reader.process, hc, Chan.tryRecv, hq]

/-- Witness for the amended C3: an active session with one buffered frame
and an empty status channel re-polls after 100 ms. -/
theorem c3_process_drains_frames_single_status_witness :
    (Reader.process
      ⟨some ⟨[], ⟨[.Labels ["a"]], false⟩, ⟨[], false⟩⟩, .Running, [],
        fun _ => []⟩).2 = some 100 :=
  (c3_process_drains_frames_single_status
    ⟨some ⟨[], ⟨[.Labels ["a"]], false⟩, ⟨[], false⟩⟩, .Running, [],
      fun _ => []⟩
    ⟨[], ⟨[.Labels ["a"]], false⟩, ⟨[], false⟩⟩ rfl).2.2.1 rfl rfl rfl

/-- The store reached by folding a two-element short `ValueRow` against the
two labels `"a"`, `"b"` starting from an empty store. -/
def c5Store : String → List (Int × Int) :=
  (stepFrame ["a", "b"] (fun _ => []) (.Values [0, 10])).2

/-- C5 counterexample: the claim says a `ValueRow` whose arity does not
match the labels is "either dropped entirely or explicitly reported as an
error, with no series partially updated".  Folding `Values [0, 10]`
against labels `["a", "b"]` does neither: series `"a"` receives `(0, 10)`
while series `"b"` receives nothing — the row is partially applied (and
`stepFrame` has no error output at all). -/
theorem c5_partial_update_counterexample :
    c5Store "a" = [(0, 10)] ∧ c5Store "b" = [] ∧
    c5Store "a" ≠ (fun _ => ([] : List (Int × Int))) "a" :=
  ⟨rfl, rfl, by simp [c5Store, stepFrame, foldValuesAux, pushSample]⟩

/-- C5 (amended): a `ValueRow` `t :: vs` against (duplicate-free) labels
`L` is folded by a truncating positional zip — series `L[i]` receives
exactly the pair `(t, vs[i])` for `i < min |L| |vs|`, series with `i ≥
|vs|` and keys outside `L` are untouched (so a short row updates only a
prefix of the series: a partial update, but never a misalignment), and a
row arriving before any `LabelSet` (empty labels) leaves the store
unchanged. -/
theorem c5_mismatch_truncating_zip (L : List String) (hN : L.Nodup)
    (d : String → List (Int × Int)) (t : Int) (vs : List Int) :
    (stepFrame [] d (.Values (t :: vs)) = ([], d)) ∧
    ((stepFrame L d (.Values (t :: vs))).1 = L) ∧
    (∀ (i : Fin L.length) (hiv : i.val < vs.length),
      (stepFrame L d (.Values (t :: vs))).2 (L.get i) =
        d (L.get i) ++ [(t, vs.get ⟨i.val, hiv⟩)]) ∧
    (∀ i : Fin L.length, vs.length ≤ i.val →
      (stepFrame L d (.Values (t :: vs))).2 (L.get i) = d (L.get i)) ∧
    (∀ k, k ∉ L → (stepFrame L d (.Values (t :: vs))).2 k = d k) := by
  refine ⟨rfl, rfl, ?_, ?_, ?_⟩
  · intro i hiv
    show foldValuesAux (L.zip vs) t d (L.get i) = _
    rw [foldValuesAux_apply, filter_zip_nodup L vs hN i, dif_pos hiv]
    simp
  · intro i hge
    show foldValuesAux (L.zip vs) t d (L.get i) = _
    rw [foldValuesAux_apply, filter_zip_nodup L vs hN i,
      dif_neg (by omega : ¬ i.val < vs.length)]
    simp
  · intro k hk
    show foldValuesAux (L.zip vs) t d k = _
    rw [foldValuesAux_apply, filter_zip_not_mem L vs k hk]
    simp

/-- Witness for the amended C5: labels `["a", "b"]`, short row
`[0, 10]` — series `"a"` gets `(0, 10)`, series `"b"` is untouched. -/
theorem c5_mismatch_truncating_zip_witness :
    (stepFrame ["a", "b"] (fun _ => []) (.Values [0, 10])).2 "a" =
      [(0, 10)] ∧
    (stepFrame ["a", "b"] (fun _ => []) (.Values [0, 10])).2 "b" = [] := by
  have h := c5_mismatch_truncating_zip ["a", "b"] (by decide)
    (fun _ => []) 0 [10]
  refine ⟨?_, ?_⟩
  · have := h.2.2.1 ⟨0, by decide⟩ (by decide)
    simpa using this
  · have := h.2.2.2.1 ⟨1, by decide⟩ (by decide)
    simpa using this

/-- C6: a `LabelSet` of `n` (distinct) labels followed by a `ValueRow` of
`n + 1` integers clears the store wholesale and then appends exactly one
`(time, value)` pair to each of the `n` series, pairing the i-th label
with the (i+1)-th integer; keys outside the labels hold nothing. -/
theorem c6_matching_row_one_sample_each (L : List String) (hN : L.Nodup)
    (labels0 : List String) (d0 : String → List (Int × Int)) (t : Int)
    (vs : List Int) (_hlen : vs.length = L.length) :
    (stepFrame labels0 d0 (.Labels L) = (L, fun _ => [])) ∧
    ((stepFrame L (fun _ => []) (.Values (t :: vs))).1 = L) ∧
    (∀ (i : Fin L.length) (hiv : i.val < vs.length),
      (stepFrame L (fun _ => []) (.Values (t :: vs))).2 (L.get i) =
        [(t, vs.get ⟨i.val, hiv⟩)]) ∧
    (∀ k, k ∉ L →
      (stepFrame L (fun _ => []) (.Values (t :: vs))).2 k = []) := by
  refine ⟨rfl, rfl, ?_, ?_⟩
  · intro i hiv
    show foldValuesAux (L.zip vs) t (fun _ => []) (L.get i) = _
    rw [foldValuesAux_apply, filter_zip_nodup L vs hN i, dif_pos hiv]
    simp
  · intro k hk
    show foldValuesAux (L.zip vs) t (fun _ => []) k = _
    rw [foldValuesAux_apply, filter_zip_not_mem L vs k hk]
    simp

/-- Witness for C6, the spec's own example: labels `["a", "b"]` then
values `[0, 10, 20]` yield `a ↦ (0, 10)` and `b ↦ (0, 20)`. -/
theorem c6_matching_row_one_sample_each_witness :
    (stepFrame
      (stepFrame [] (fun _ => []) (.Labels ["a", "b"])).1
      (stepFrame [] (fun _ => []) (.Labels ["a", "b"])).2
      (.Values [0, 10, 20])).2 "a" = [(0, 10)] ∧
    (stepFrame
      (stepFrame [] (fun _ => []) (.Labels ["a", "b"])).1
      (stepFrame [] (fun _ => []) (.Labels ["a", "b"])).2
      (.Values [0, 10, 20])).2 "b" = [(0, 20)] := by
  have h := c6_matching_row_one_sample_each ["a", "b"] (by decide) []
    (fun _ => []) 0 [10, 20] (by decide)
  refine ⟨?_, ?_⟩
  · have := h.2.2.1 ⟨0, by decide⟩ (by decide)
    simpa using this
  · have := h.2.2.1 ⟨1, by decide⟩ (by decide)
    simpa using this

/-- The concrete Reader used for C8: an active session, status `Running`,
with one `LogErr` message buffered on the status channel. -/
def c8Reader : Reader :=
  ⟨some ⟨[], ⟨[], false⟩, ⟨[.LogErr "denied"], false⟩⟩, .Running, [],
    fun _ => []⟩

/-- C8 counterexample: after the consumer polls the `LogError`, its stored
status is `LogErr "denied"` — the claim that the status is "left unchanged
— still Running" is false (`reader_status()` now returns the error text,
not `"Running"`), although `running()` does stay true. -/
theorem c8_status_changed_counterexample :
    (Reader.process c8Reader).1.status = .LogErr "denied" ∧
    (Reader.process c8Reader).1.status ≠ .Running ∧
    (Reader.process c8Reader).1.reader_status ≠ "Running" ∧
    (Reader.process c8Reader).1.running = true := by
  refine ⟨rfl, ?_, ?_, rfl⟩
  · intro hx
    exact ReaderStatus.noConfusion
      ((show (Reader.process c8Reader).1.status = .LogErr "denied" from rfl)
        ▸ hx : ReaderStatus.LogErr "denied" = .Running)
  · intro hx
    have : ("denied" : String) = "Running" := by
      calc ("denied" : String)
          = (Reader.process c8Reader).1.reader_status := rfl
        _ = "Running" := hx
    exact absurd this (by decide)

/-- C8 (amended): `StartLogging` against an unwritable destination makes
the worker emit `LogErr` with the error message, arm no writer, and keep
running (it continues its loop; no `Stopped` is sent); when the consumer
polls the `LogError` its stored status becomes `LogErr(message)` — not
`Stopped` — so `running()` remains true, the session handle stays
installed and the re-poll delay stays 100 ms. -/
theorem c8_logerror_keeps_running (s : WorkerState) (hs : s.loggerRows = none)
    (path e msg : String) (fsHeader fsFlush : Option String) (r0 : ReadResult)
    (r : Reader) (c : ReaderComm) (rest : List ReaderStatus)
    (hc : r.comm = some c) (hq : c.statuses.queue = .LogErr msg :: rest) :
    (workerStep s (.got (.StartLogging path)) (.error e) fsHeader fsFlush r0 =
      ⟨.continued, s, [.LogErr e], []⟩) ∧
    ((Reader.process r).1.status = .LogErr msg) ∧
    ((Reader.process r).1.running = true) ∧
    (∃ c', (Reader.process r).1.comm = some c') ∧
    (c.frames.senderDropped = false → (Reader.process r).2 = some 100) := by
  refine ⟨?_, ?_, ?_, ?_, ?_⟩
  · simp [workerStep, hs]
  · simp [Reader.process, hc, Chan.tryRecv, hq]
  · simp [Reader.process, hc, Chan.tryRecv, hq, Reader.running]
  · refine ⟨⟨c.commandQueue, ⟨[], c.frames.senderDropped⟩,
      ⟨rest, c.statuses.senderDropped⟩⟩, ?_⟩
    simp [Reader.process, hc, Chan.tryRecv, hq]
  · intro hfd
    simp [Reader.process, hc, Chan.tryRecv, hq, hfd]

/-- Witness for the amended C8 at concrete inputs. -/
theorem c8_logerror_keeps_running_witness :
    (workerStep ⟨0, none⟩ (.got (.StartLogging "p")) (.error "denied")
        none none .timedOut =
      ⟨.continued, ⟨0, none⟩, [.LogErr "denied"], []⟩) ∧
    ((Reader.process c8Reader).1.running = true) ∧
    ((Reader.process c8Reader).2 = some 100) := by
  have h := c8_logerror_keeps_running ⟨0, none⟩ rfl "p" "denied" "denied"
    none none .timedOut c8Reader ⟨[], ⟨[], false⟩, ⟨[.LogErr "denied"], false⟩⟩
    [] rfl rfl
  exact ⟨h.1, h.2.2.1, h.2.2.2.2 rfl⟩
